import Mathlib

/-!
Verification development for the meteodetect chirp detector (src/main.c).

The per-sample pipeline of `meteo_detect_feed`, the constructor
`meteo_detect_new` and the destructor `meteo_detect_destroy` are embedded
shallowly.  `SUFLOAT` arithmetic is modelled over `ℚ`; `SUSCOUNT`
(`uint64_t`) counters are `ℕ` reduced modulo `2 ^ 64` exactly where the C
code can overflow.  The sigutils primitives (the two IIR low-pass filters
and the NCQO local oscillator) and the libm transcendentals (`exp`,
`carg`) are external collaborators: their per-call outputs enter the model
as oracle values (`ExtOut`) and abstract functions (`su_exp`, `carg`).
-/

/-- Complex samples (`SUCOMPLEX`) as pairs of rationals. -/
abbrev Cplx : Type := ℚ × ℚ

/-- Complex multiplication on `Cplx`. -/
def cmul (a b : Cplx) : Cplx :=
  (a.1 * b.1 - a.2 * b.2, a.1 * b.2 + a.2 * b.1)

/-- Complex conjugation (`SU_C_CONJ`). -/
def cconj (a : Cplx) : Cplx := (a.1, -a.2)

/-- Per-call outputs of the external sigutils operators: the local
oscillator sample read by `su_ncqo_read` and the outputs of the two
`su_iir_filt_feed` calls on this feed call. -/
structure ExtOut where
  lo_out : Cplx
  lpf1_out : Cplx
  lpf2_out : Cplx

/-- One console notification, as printed by the chirp-end `printf`:
the chirp length and the event time decomposed as `seconds / 3600`,
`(seconds / 60) % 60` and `seconds % 60`. -/
structure ConsoleMsg where
  len : ℕ
  hh : ℕ
  mm : ℕ
  ss : ℕ
deriving DecidableEq

/-- Modulus of the 64-bit unsigned `SUSCOUNT` counters. -/
def W64 : ℕ := 2 ^ 64

/-- The `LPF1_CUTOFF` constant (Hz), the wider noise-sensing cutoff. -/
def LPF1_CUTOFF : ℚ := 300

/-- The `LPF2_CUTOFF` constant (Hz), the narrower chirp-isolation cutoff. -/
def LPF2_CUTOFF : ℚ := 50

/-- The constant `POWER_THRESHOLD = 2 * (LPF2_CUTOFF / LPF1_CUTOFF)`. -/
def POWER_THRESHOLD : ℚ := 2 * (LPF2_CUTOFF / LPF1_CUTOFF)

/-- The `MIN_CHIRP_DURATION` constant (seconds). -/
def MIN_CHIRP_DURATION : ℚ := 7 / 100

/-- The detector state `struct meteo_detect`.  The opaque filter and
oscillator states are external collaborators and live outside the model;
the output file handle is modelled by returning each written sample. -/
structure meteo_detect where
  fs : ℚ
  n : ℕ
  alpha : ℚ
  n0 : ℚ
  s0 : ℚ
  powerbuf_len : ℕ
  p : ℕ
  powerbuf : List ℚ
  delay_line : List Cplx
  energy_thres : ℚ
  in_chirp : Bool
  chirp_len : ℕ
  chirp_remaining : ℕ
  prev : Cplx

/-- Value of `md->n0` after the EMA update against `|lpf1 output|²`
(`md->n0 += md->alpha * (SU_C_REAL(y * SU_C_CONJ(y)) - md->n0)`). -/
def n0After (md : meteo_detect) (ext : ExtOut) : ℚ :=
  md.n0 + md.alpha * ((cmul ext.lpf1_out (cconj ext.lpf1_out)).1 - md.n0)

/-- Value of `md->s0` after the EMA update against `|lpf2 output|²`. -/
def s0After (md : meteo_detect) (ext : ExtOut) : ℚ :=
  md.s0 + md.alpha * ((cmul ext.lpf2_out (cconj ext.lpf2_out)).1 - md.s0)

/-- The SNR value `ratio = md->s0 / md->n0` stored into the power buffer
on this call (division by zero yields 0 in the rational model). -/
def ratioAfter (md : meteo_detect) (ext : ExtOut) : ℚ :=
  s0After md ext / n0After md ext

/-- The windowed integral computed on this call: the sum over the power
buffer after the current SNR value has been written at index `md.p`. -/
def integralAfter (md : meteo_detect) (ext : ExtOut) : ℚ :=
  (md.powerbuf.set md.p (ratioAfter md ext)).sum

/-- The `seconds` value computed on a chirp-end transition:
`SU_FLOOR((md->n - md->chirp_len) / md->fs)` with the unsigned 64-bit
wrap-around subtraction made explicit. -/
def secondsAt (md : meteo_detect) : ℕ :=
  (⌊(((md.n + W64 - md.chirp_len) % W64 : ℕ) : ℚ) / md.fs⌋).toNat

/-- Shallow embedding of `meteo_detect_feed`.  The input sample `x`
reaches the pipeline only through the external filter outputs in `ext`;
`carg` models `SU_C_ARG`.  Returns the updated state, the console
notifications emitted during the call, and the one complex sample written
to the output file. -/
def meteo_detect_feed (carg : Cplx → ℚ) (md : meteo_detect) (_x : Cplx)
    (ext : ExtOut) : meteo_detect × List ConsoleMsg × Cplx :=
  let n0 := n0After md ext
  let s0 := s0After md ext
  let ratio := ratioAfter md ext
  let powerbuf := md.powerbuf.set md.p ratio
  let delay_line := md.delay_line.set md.p (cmul ext.lpf2_out (cconj md.prev))
  let p := if md.p + 1 = md.powerbuf_len then 0 else md.p + 1
  let integral := integralAfter md ext
  let sm : Bool × ℕ × ℕ × List ConsoleMsg :=
    if md.in_chirp then
      if integral < md.energy_thres then
        let seconds := secondsAt md
        (false, md.chirp_len, md.chirp_remaining,
          [⟨md.chirp_len, seconds / 3600, seconds / 60 % 60, seconds % 60⟩])
      else
        (true, (md.chirp_len + 1) % W64, md.chirp_remaining, [])
    else
      if md.energy_thres ≤ integral then
        (true, md.powerbuf_len, md.powerbuf_len, [])
      else
        (false, md.chirp_len, md.chirp_remaining, [])
  let in_chirp := sm.1
  let chirp_len := sm.2.1
  let rem0 := sm.2.2.1
  let msgs := sm.2.2.2
  let chirp_remaining := if in_chirp = false ∧ 0 < rem0 then rem0 - 1 else rem0
  let out : Cplx :=
    (if chirp_remaining ≠ 0 then 1 else 0,
     if chirp_remaining ≠ 0 then carg (delay_line.getD p ((0 : ℚ), (0 : ℚ)))
     else 0)
  ({ md with
      n0 := n0, s0 := s0, powerbuf := powerbuf, delay_line := delay_line,
      p := p, in_chirp := in_chirp, chirp_len := chirp_len,
      chirp_remaining := chirp_remaining, prev := ext.lpf2_out,
      n := (md.n + 1) % W64 },
   msgs, out)

/-- The detector state produced by the success path of
`meteo_detect_new`: `calloc` zero-initializes every field, then `fs`,
`alpha`, `powerbuf_len`, `energy_thres` and the two zero-filled buffers
are set.  `su_exp` models the libm `SU_EXP`. -/
def initState (su_exp : ℚ → ℚ) (fs : ℚ) : meteo_detect :=
  let len := (⌈fs * MIN_CHIRP_DURATION⌉).toNat
  { fs := fs
    n := 0
    alpha := 1 - su_exp (-1 / (fs * MIN_CHIRP_DURATION))
    n0 := 0
    s0 := 0
    powerbuf_len := len
    p := 0
    powerbuf := List.replicate len 0
    delay_line := List.replicate len ((0 : ℚ), (0 : ℚ))
    energy_thres := POWER_THRESHOLD * (len : ℚ)
    in_chirp := false
    chirp_len := 0
    chirp_remaining := 0
    prev := ((0 : ℚ), (0 : ℚ)) }

/-- The resources acquired and released by construction/destruction. -/
inductive Resource where
  | mainStruct : Resource
  | filt1 : Resource
  | filt2 : Resource
  | powerbuf : Resource
  | delayLine : Resource
  | ofile : Resource
deriving DecidableEq

/-- Success/failure oracle for the six fallible acquisition steps of
`meteo_detect_new` (`calloc` of the struct, the two
`su_iir_bwlpf_init` calls, the two buffer `calloc`s, and `fopen`). -/
structure AllocOracle where
  mainOk : Bool
  f1Ok : Bool
  f2Ok : Bool
  pbOk : Bool
  dlOk : Bool
  openOk : Bool

/-- Shallow embedding of `meteo_detect_destroy`: the list of resources it
releases, in program order, given which ones the struct actually holds
(`fclose`/`free` are guarded by `!= NULL` checks on the `calloc`-zeroed
struct; the two filter finalizers run unconditionally and release the
filter's storage exactly when it was initialized). -/
def meteo_detect_destroy (hasOfp hasPB hasDL hasF1 hasF2 : Bool) :
    List Resource :=
  (if hasOfp then [Resource.ofile] else []) ++
  (if hasPB then [Resource.powerbuf] else []) ++
  (if hasDL then [Resource.delayLine] else []) ++
  (if hasF1 then [Resource.filt1] else []) ++
  (if hasF2 then [Resource.filt2] else []) ++
  [Resource.mainStruct]

/-- The pointer value `meteo_detect_new` hands back to its caller:
the `NULL` pointer (only when the very first `calloc` fails, since the
local `new` is still `NULL` at the `fail:` label), the freed-but-non-NULL
dangling pointer (every later failure: the `fail:` path calls
`meteo_detect_destroy(new)`, whose last action is `free(detect)`, and
then executes `return new;` with the pointer value unchanged), or a
pointer to a valid instance (success). -/
inductive CtorResult where
  | nullPtr : CtorResult
  | dangling : CtorResult
  | valid : meteo_detect → CtorResult

/-- Shallow embedding of `meteo_detect_new`.  Returns the pointer value
handed back to the caller, the list of resources acquired in program
order, and the list of resources released by the `fail:` path's
`meteo_detect_destroy` call (empty on success, and empty when the very
first `calloc` fails, since then `new == NULL` and destroy is skipped).
Note the C fail path never clears the local `new` after destroying it:
`return new;` returns `NULL` only for a first-`calloc` failure and
returns the freed non-NULL pointer (`CtorResult.dangling`) for every
other failure. -/
def meteo_detect_new (su_exp : ℚ → ℚ) (fs : ℚ) (o : AllocOracle) :
    CtorResult × List Resource × List Resource :=
  if o.mainOk then
    if o.f1Ok then
      if o.f2Ok then
        if o.pbOk then
          if o.dlOk then
            if o.openOk then
              (CtorResult.valid (initState su_exp fs),
               [Resource.mainStruct, Resource.filt1, Resource.filt2,
                Resource.powerbuf, Resource.delayLine, Resource.ofile], [])
            else
              (CtorResult.dangling,
               [Resource.mainStruct, Resource.filt1, Resource.filt2,
                Resource.powerbuf, Resource.delayLine],
               meteo_detect_destroy false true true true true)
          else
            (CtorResult.dangling,
             [Resource.mainStruct, Resource.filt1, Resource.filt2,
              Resource.powerbuf],
             meteo_detect_destroy false true false true true)
        else
          (CtorResult.dangling,
           [Resource.mainStruct, Resource.filt1, Resource.filt2],
           meteo_detect_destroy false false false true true)
      else
        (CtorResult.dangling,
         [Resource.mainStruct, Resource.filt1],
         meteo_detect_destroy false false false true false)
    else
      (CtorResult.dangling, [Resource.mainStruct],
       meteo_detect_destroy false false false false false)
  else
    (CtorResult.nullPtr, [], [])

/-- A run of consecutive feed calls: the final state and the list of
output samples written, one per call. -/
def feedTrace (carg : Cplx → ℚ) :
    meteo_detect → List (Cplx × ExtOut) → meteo_detect × List Cplx
  | md, [] => (md, [])
  | md, (x, e) :: rest =>
      let r := meteo_detect_feed carg md x e
      let t := feedTrace carg r.1 rest
      (t.1, r.2.2 :: t.2)

/-- Holds when, along the whole run, the windowed integral of every call
stays strictly below the energy threshold (so the state machine never
enters, or re-enters, the chirp state). -/
def belowThroughout (carg : Cplx → ℚ) :
    meteo_detect → List (Cplx × ExtOut) → Bool
  | _, [] => true
  | md, (x, e) :: rest =>
      decide (integralAfter md e < md.energy_thres) &&
      belowThroughout carg (meteo_detect_feed carg md x e).1 rest

/-- States reachable from a successful construction by feed calls. -/
inductive Reachable (su_exp : ℚ → ℚ) (carg : Cplx → ℚ) (fs : ℚ) :
    meteo_detect → Prop where
  | init (o : AllocOracle) (st : meteo_detect) :
      (meteo_detect_new su_exp fs o).1 = CtorResult.valid st →
      Reachable su_exp carg fs st
  | step (md : meteo_detect) (x : Cplx) (ext : ExtOut) :
      Reachable su_exp carg fs md →
      Reachable su_exp carg fs (meteo_detect_feed carg md x ext).1

/-- The state invariant maintained by `meteo_detect_feed`: the window
length is positive, the write index is in range, the tail counter never
exceeds the window length, and while inside a chirp the tail counter sits
at the full window length. -/
def DetInv (md : meteo_detect) : Prop :=
  0 < md.powerbuf_len ∧ md.p < md.powerbuf_len ∧
  md.chirp_remaining ≤ md.powerbuf_len ∧
  (md.in_chirp = true → md.chirp_remaining = md.powerbuf_len)

/-- Modelled from the spec: the response of the external zero-state
linear low-pass filters to an all-zero input stream is zero on every
call (the oscillator output is irrelevant, since the filter input
`x * conj(lo)` is already zero). -/
def silentExt : ExtOut := ⟨(1, 0), (0, 0), (0, 0)⟩

/-- The detector state after feeding `k` all-zero samples to a freshly
constructed detector. -/
def silentRun (su_exp : ℚ → ℚ) (carg : Cplx → ℚ) (fs : ℚ) :
    ℕ → meteo_detect
  | 0 => initState su_exp fs
  | k + 1 =>
      (meteo_detect_feed carg (silentRun su_exp carg fs k) ((0 : ℚ), (0 : ℚ))
        silentExt).1

/-- Concrete stand-in for the external `SU_EXP` (its value only enters
the unused-in-these-runs `alpha` smoothing factor through `1 - su_exp`,
here giving `alpha = 1`). -/
def suExp0 : ℚ → ℚ := fun _ => 0

/-- Concrete stand-in for the external `SU_C_ARG`. -/
def carg0 : Cplx → ℚ := fun _ => 0

/-- The input sample used in the concrete runs (its value is irrelevant:
it reaches the pipeline only through the filter-output oracles). -/
def xIn : Cplx := (0, 0)

/-- Oracle call with both filter outputs of unit amplitude (ratio 1). -/
def extA : ExtOut := ⟨(1, 0), (1, 0), (1, 0)⟩

/-- Oracle call with zero narrowband output (ratio 0). -/
def extB : ExtOut := ⟨(1, 0), (1, 0), (0, 0)⟩

/-- Freshly constructed detector at sample rate 20 Hz (window length 2,
energy threshold 2/3). -/
def exInit : meteo_detect := initState suExp0 20

/-- State after one feed call with ratio 1: the chirp state is entered. -/
def exS1 : meteo_detect := (meteo_detect_feed carg0 exInit xIn extA).1

/-- State after a second feed call: still in the chirp. -/
def exS2 : meteo_detect := (meteo_detect_feed carg0 exS1 xIn extB).1

/-- State after a third feed call: the integral drops below the
threshold and the chirp ends. -/
def exS3 : meteo_detect := (meteo_detect_feed carg0 exS2 xIn extB).1

/-- A one-window state with `powerbuf_len = 1` and `energy_thres = 1`,
used to exercise the threshold tie-break at an exact equality. -/
def mdT : meteo_detect :=
  ⟨1, 0, 1, 0, 0, 1, 0, [0], [((0 : ℚ), (0 : ℚ))], 1, false, 0, 0,
   ((0 : ℚ), (0 : ℚ))⟩

/-! ### Per-call facts about `meteo_detect_feed` -/

lemma feed_powerbuf_len (carg : Cplx → ℚ) (md : meteo_detect) (x : Cplx)
    (ext : ExtOut) :
    (meteo_detect_feed carg md x ext).1.powerbuf_len = md.powerbuf_len := rfl

lemma feed_energy_thres (carg : Cplx → ℚ) (md : meteo_detect) (x : Cplx)
    (ext : ExtOut) :
    (meteo_detect_feed carg md x ext).1.energy_thres = md.energy_thres := rfl

lemma feed_fs (carg : Cplx → ℚ) (md : meteo_detect) (x : Cplx) (ext : ExtOut) :
    (meteo_detect_feed carg md x ext).1.fs = md.fs := rfl

lemma feed_alpha (carg : Cplx → ℚ) (md : meteo_detect) (x : Cplx)
    (ext : ExtOut) :
    (meteo_detect_feed carg md x ext).1.alpha = md.alpha := rfl

lemma feed_p (carg : Cplx → ℚ) (md : meteo_detect) (x : Cplx) (ext : ExtOut) :
    (meteo_detect_feed carg md x ext).1.p =
      if md.p + 1 = md.powerbuf_len then 0 else md.p + 1 := rfl

lemma feed_n0 (carg : Cplx → ℚ) (md : meteo_detect) (x : Cplx) (ext : ExtOut) :
    (meteo_detect_feed carg md x ext).1.n0 = n0After md ext := rfl

lemma feed_s0 (carg : Cplx → ℚ) (md : meteo_detect) (x : Cplx) (ext : ExtOut) :
    (meteo_detect_feed carg md x ext).1.s0 = s0After md ext := rfl

lemma feed_powerbuf (carg : Cplx → ℚ) (md : meteo_detect) (x : Cplx)
    (ext : ExtOut) :
    (meteo_detect_feed carg md x ext).1.powerbuf =
      md.powerbuf.set md.p (ratioAfter md ext) := rfl

lemma feed_out_fst (carg : Cplx → ℚ) (md : meteo_detect) (x : Cplx)
    (ext : ExtOut) :
    ((meteo_detect_feed carg md x ext).2.2).1 =
      if (meteo_detect_feed carg md x ext).1.chirp_remaining ≠ 0 then 1
      else 0 := rfl

/-- Chirp-end branch: `in_chirp` is true and the integral dropped below the
threshold. -/
lemma feed_exit_eq (carg : Cplx → ℚ) (md : meteo_detect) (x : Cplx)
    (ext : ExtOut) (h1 : md.in_chirp = true)
    (h2 : integralAfter md ext < md.energy_thres) :
    (meteo_detect_feed carg md x ext).1.in_chirp = false ∧
    (meteo_detect_feed carg md x ext).1.chirp_len = md.chirp_len ∧
    (meteo_detect_feed carg md x ext).1.chirp_remaining =
      (if 0 < md.chirp_remaining then md.chirp_remaining - 1
       else md.chirp_remaining) ∧
    (meteo_detect_feed carg md x ext).2.1 =
      [⟨md.chirp_len, secondsAt md / 3600, secondsAt md / 60 % 60,
        secondsAt md % 60⟩] := by
  simp only [meteo_detect_feed, h1, if_true, if_pos h2]
  simp

/-- Chirp-continuation branch: `in_chirp` is true and the integral is still
at or above the threshold. -/
lemma feed_stay_eq (carg : Cplx → ℚ) (md : meteo_detect) (x : Cplx)
    (ext : ExtOut) (h1 : md.in_chirp = true)
    (h2 : ¬ integralAfter md ext < md.energy_thres) :
    (meteo_detect_feed carg md x ext).1.in_chirp = true ∧
    (meteo_detect_feed carg md x ext).1.chirp_len = (md.chirp_len + 1) % W64 ∧
    (meteo_detect_feed carg md x ext).1.chirp_remaining =
      md.chirp_remaining ∧
    (meteo_detect_feed carg md x ext).2.1 = [] := by
  simp only [meteo_detect_feed, h1, if_true, if_neg h2]
  simp

/-- Chirp-entry branch: `in_chirp` is false and the integral reached the
threshold. -/
lemma feed_enter_eq (carg : Cplx → ℚ) (md : meteo_detect) (x : Cplx)
    (ext : ExtOut) (h1 : md.in_chirp = false)
    (h2 : md.energy_thres ≤ integralAfter md ext) :
    (meteo_detect_feed carg md x ext).1.in_chirp = true ∧
    (meteo_detect_feed carg md x ext).1.chirp_len = md.powerbuf_len ∧
    (meteo_detect_feed carg md x ext).1.chirp_remaining = md.powerbuf_len ∧
    (meteo_detect_feed carg md x ext).2.1 = [] := by
  simp only [meteo_detect_feed, h1, Bool.false_eq_true, if_false, if_pos h2]
  simp

/-- Idle branch: `in_chirp` is false and the integral is below the
threshold. -/
lemma feed_idle_eq (carg : Cplx → ℚ) (md : meteo_detect) (x : Cplx)
    (ext : ExtOut) (h1 : md.in_chirp = false)
    (h2 : ¬ md.energy_thres ≤ integralAfter md ext) :
    (meteo_detect_feed carg md x ext).1.in_chirp = false ∧
    (meteo_detect_feed carg md x ext).1.chirp_len = md.chirp_len ∧
    (meteo_detect_feed carg md x ext).1.chirp_remaining =
      (if 0 < md.chirp_remaining then md.chirp_remaining - 1
       else md.chirp_remaining) ∧
    (meteo_detect_feed carg md x ext).2.1 = [] := by
  simp only [meteo_detect_feed, h1, Bool.false_eq_true, if_false, if_neg h2]
  simp

/-! ### Reachable-state invariants -/

lemma inv_initState (su_exp : ℚ → ℚ) (fs : ℚ) (hfs : 0 < fs) :
    DetInv (initState su_exp fs) := by
  have hlen : 0 < (⌈fs * MIN_CHIRP_DURATION⌉).toNat := by
    have h1 : (0 : ℤ) < ⌈fs * MIN_CHIRP_DURATION⌉ := by
      refine Int.ceil_pos.mpr ?_
      have : (0 : ℚ) < MIN_CHIRP_DURATION := by norm_num [MIN_CHIRP_DURATION]
      positivity
    omega
  refine ⟨hlen, hlen, ?_, ?_⟩ <;> simp [initState]

lemma new_valid_eq (su_exp : ℚ → ℚ) (fs : ℚ) (o : AllocOracle)
    (st : meteo_detect)
    (h : (meteo_detect_new su_exp fs o).1 = CtorResult.valid st) :
    st = initState su_exp fs := by
  rcases o with ⟨m, f1, f2, pb, dl, op⟩
  cases m <;> cases f1 <;> cases f2 <;> cases pb <;> cases dl <;> cases op <;>
    simp_all [meteo_detect_new]

lemma inv_step (carg : Cplx → ℚ) (md : meteo_detect) (x : Cplx)
    (ext : ExtOut) (h : DetInv md) :
    DetInv (meteo_detect_feed carg md x ext).1 := by
  obtain ⟨hL, hp, hrem, hfull⟩ := h
  have hL' : (meteo_detect_feed carg md x ext).1.powerbuf_len =
      md.powerbuf_len := feed_powerbuf_len carg md x ext
  have hp' : (meteo_detect_feed carg md x ext).1.p =
      if md.p + 1 = md.powerbuf_len then 0 else md.p + 1 :=
    feed_p carg md x ext
  have hpin : (meteo_detect_feed carg md x ext).1.p < md.powerbuf_len := by
    rw [hp']
    split <;> omega
  by_cases h1 : md.in_chirp = true
  · by_cases h2 : integralAfter md ext < md.energy_thres
    · obtain ⟨hc, _, hr, _⟩ := feed_exit_eq carg md x ext h1 h2
      refine ⟨by rw [hL']; exact hL, hpin, ?_, ?_⟩
      · rw [hL', hr]; split <;> omega
      · rw [hc]; intro hcon; exact absurd hcon (by simp)
    · obtain ⟨hc, _, hr, _⟩ := feed_stay_eq carg md x ext h1 h2
      refine ⟨by rw [hL']; exact hL, hpin, ?_, ?_⟩
      · rw [hL', hr]; exact hrem
      · intro _; rw [hL', hr]; exact hfull h1
  · have h1' : md.in_chirp = false := by
      cases hmd : md.in_chirp
      · rfl
      · exact absurd hmd h1
    by_cases h2 : md.energy_thres ≤ integralAfter md ext
    · obtain ⟨hc, _, hr, _⟩ := feed_enter_eq carg md x ext h1' h2
      refine ⟨by rw [hL']; exact hL, hpin, ?_, ?_⟩
      · rw [hL', hr]
      · intro _; rw [hL', hr]
    · obtain ⟨hc, _, hr, _⟩ := feed_idle_eq carg md x ext h1' h2
      refine ⟨by rw [hL']; exact hL, hpin, ?_, ?_⟩
      · rw [hL', hr]; split <;> omega
      · rw [hc]; intro hcon; exact absurd hcon (by simp)

lemma reachable_inv (su_exp : ℚ → ℚ) (carg : Cplx → ℚ) (fs : ℚ)
    (md : meteo_detect) (h : Reachable su_exp carg fs md) (hfs : 0 < fs) :
    DetInv md := by
  induction h with
  | init o st hst =>
      rw [new_valid_eq su_exp fs o st hst]
      exact inv_initState su_exp fs hfs
  | step md x ext _ ih => exact inv_step carg md x ext ih

/-! ### Claim theorems: the feed state machine -/

/-- Claim C3: the threshold comparison uses `≥` for entering and
continuing a chirp and `<` for exiting, so when the windowed integral
equals `energy_thres` exactly, the feed call ends with the state machine
in the chirp state: it enters from idle, and stays when already in a
chirp. -/
theorem threshold_tie_enters_chirp (carg : Cplx → ℚ) (md : meteo_detect)
    (x : Cplx) (ext : ExtOut)
    (h : integralAfter md ext = md.energy_thres) :
    (meteo_detect_feed carg md x ext).1.in_chirp = true := by
  by_cases h1 : md.in_chirp = true
  · have h2 : ¬ integralAfter md ext < md.energy_thres := by
      rw [h]; exact lt_irrefl _
    exact (feed_stay_eq carg md x ext h1 h2).1
  · have h1' : md.in_chirp = false := by
      cases hmd : md.in_chirp
      · rfl
      · exact absurd hmd h1
    have h2 : md.energy_thres ≤ integralAfter md ext := le_of_eq h.symm
    exact (feed_enter_eq carg md x ext h1' h2).1

/-- Claim C4: a feed call that transitions the state machine from idle to
the chirp state (`integral ≥ energy_thres` while idle) sets both
`chirp_len` and `chirp_remaining` to the window length. -/
theorem idle_to_chirp_sets_lengths (carg : Cplx → ℚ) (md : meteo_detect)
    (x : Cplx) (ext : ExtOut) (h1 : md.in_chirp = false)
    (h2 : md.energy_thres ≤ integralAfter md ext) :
    (meteo_detect_feed carg md x ext).1.in_chirp = true ∧
    (meteo_detect_feed carg md x ext).1.chirp_len = md.powerbuf_len ∧
    (meteo_detect_feed carg md x ext).1.chirp_remaining =
      md.powerbuf_len := by
  obtain ⟨ha, hb, hc, _⟩ := feed_enter_eq carg md x ext h1 h2
  exact ⟨ha, hb, hc⟩

/-- Claim C5, amended: a feed call that transitions the state machine from
the chirp state to idle (`integral < energy_thres` while in a chirp) emits
exactly one console notification, containing the current `chirp_len` and a
timestamp of `floor(((sampleCounter - chirpLength) mod 2^64) / sampleRate)`
seconds — the subtraction is the 64-bit unsigned `md->n - md->chirp_len`,
which wraps when `chirp_len > n` — decomposed into hours, minutes and
seconds; the call sets `in_chirp := false` and does not increment
`chirp_len`.  Whenever `chirp_len ≤ n < 2^64`, the wrapped value agrees
with the claim's exact subtraction `n - chirp_len`. -/
theorem chirp_end_notification (carg : Cplx → ℚ) (md : meteo_detect)
    (x : Cplx) (ext : ExtOut) (h1 : md.in_chirp = true)
    (h2 : integralAfter md ext < md.energy_thres) :
    (meteo_detect_feed carg md x ext).2.1 =
      [⟨md.chirp_len,
        (⌊(((md.n + W64 - md.chirp_len) % W64 : ℕ) : ℚ) / md.fs⌋).toNat /
          3600,
        (⌊(((md.n + W64 - md.chirp_len) % W64 : ℕ) : ℚ) / md.fs⌋).toNat /
          60 % 60,
        (⌊(((md.n + W64 - md.chirp_len) % W64 : ℕ) : ℚ) / md.fs⌋).toNat %
          60⟩] ∧
    (meteo_detect_feed carg md x ext).1.in_chirp = false ∧
    (meteo_detect_feed carg md x ext).1.chirp_len = md.chirp_len ∧
    (md.chirp_len ≤ md.n → md.n < W64 →
      ((md.n + W64 - md.chirp_len) % W64 : ℕ) = md.n - md.chirp_len) := by
  obtain ⟨ha, hb, _, hd⟩ := feed_exit_eq carg md x ext h1 h2
  refine ⟨?_, ha, hb, ?_⟩
  · rw [hd]; rfl
  · intro hle hlt
    simp only [W64] at hlt ⊢
    omega

/-- Claim C6: every feed call emits exactly one output complex sample: its
real part is 1 when the post-call `chirp_remaining` is nonzero and 0
otherwise, and its imaginary part is the phase of the delay-line entry at
the post-call (already advanced) write index when valid, else 0. -/
theorem feed_output_encoding (carg : Cplx → ℚ) (md : meteo_detect)
    (x : Cplx) (ext : ExtOut) :
    (meteo_detect_feed carg md x ext).2.2 =
      ((if (meteo_detect_feed carg md x ext).1.chirp_remaining ≠ 0 then 1
        else 0),
       (if (meteo_detect_feed carg md x ext).1.chirp_remaining ≠ 0 then
          carg ((meteo_detect_feed carg md x ext).1.delay_line.getD
            ((meteo_detect_feed carg md x ext).1.p) ((0 : ℚ), (0 : ℚ)))
        else 0)) := rfl

/-- Claim C7: in every state reachable from a valid construction
(positive sample rate) through any sequence of feed calls, the write
index lies strictly below the window length and the tail counter never
exceeds the window length; moreover each further feed call advances the
write index modulo the window length. -/
theorem reachable_index_and_tail_bounds (su_exp : ℚ → ℚ)
    (carg : Cplx → ℚ) (fs : ℚ) (md : meteo_detect)
    (h : Reachable su_exp carg fs md) (hfs : 0 < fs) :
    md.p < md.powerbuf_len ∧ md.chirp_remaining ≤ md.powerbuf_len ∧
    ∀ x ext, (meteo_detect_feed carg md x ext).1.p =
      (md.p + 1) % md.powerbuf_len := by
  obtain ⟨hL, hp, hrem, _⟩ := reachable_inv su_exp carg fs md h hfs
  refine ⟨hp, hrem, ?_⟩
  intro x ext
  rw [feed_p]
  split
  · next heq => rw [heq, Nat.mod_self]
  · next hne => exact (Nat.mod_eq_of_lt (by omega)).symm

/-- Claim C10: on every feed call that ends with the state machine in the
chirp state (a call made during a chirp, whether entering or continuing),
the tail counter is not decremented: it ends the call equal to the window
length, stays equal to its previous value when the call was already in a
chirp, and the emitted output sample has real part 1. -/
theorem in_chirp_tail_stays_full (su_exp : ℚ → ℚ) (carg : Cplx → ℚ)
    (fs : ℚ) (md : meteo_detect) (x : Cplx) (ext : ExtOut)
    (h : Reachable su_exp carg fs md) (hfs : 0 < fs)
    (hchirp : (meteo_detect_feed carg md x ext).1.in_chirp = true) :
    (meteo_detect_feed carg md x ext).1.chirp_remaining =
      md.powerbuf_len ∧
    (md.in_chirp = true →
      (meteo_detect_feed carg md x ext).1.chirp_remaining =
        md.chirp_remaining) ∧
    ((meteo_detect_feed carg md x ext).2.2).1 = 1 := by
  obtain ⟨hL, _, _, hfull⟩ := reachable_inv su_exp carg fs md h hfs
  have hrem : (meteo_detect_feed carg md x ext).1.chirp_remaining =
      md.powerbuf_len := by
    by_cases h1 : md.in_chirp = true
    · by_cases h2 : integralAfter md ext < md.energy_thres
      · obtain ⟨hc, _, _, _⟩ := feed_exit_eq carg md x ext h1 h2
        rw [hchirp] at hc
        exact absurd hc (by simp)
      · obtain ⟨_, _, hr, _⟩ := feed_stay_eq carg md x ext h1 h2
        rw [hr]; exact hfull h1
    · have h1' : md.in_chirp = false := by
        cases hmd : md.in_chirp
        · rfl
        · exact absurd hmd h1
      by_cases h2 : md.energy_thres ≤ integralAfter md ext
      · exact (feed_enter_eq carg md x ext h1' h2).2.2.1
      · obtain ⟨hc, _, _, _⟩ := feed_idle_eq carg md x ext h1' h2
        rw [hchirp] at hc
        exact absurd hc (by simp)
  refine ⟨hrem, ?_, ?_⟩
  · intro h1; rw [hrem, hfull h1]
  · rw [feed_out_fst, if_pos]
    rw [hrem]
    omega

/-! ### Claim theorems: construction -/

/-- Claim C1 (code bug): at the concrete failing input where every
acquisition succeeds except opening the output destination, the fail
path of `meteo_detect_new` does release exactly the acquired resources,
but it then executes `return new;` with the freed pointer still
non-NULL: the caller receives the dangling pointer — a usable-looking
non-NULL value that the caller's `SU_TRYCATCH` NULL test accepts — and
not the claimed failure value.  Only a failure of the very first
`calloc` actually returns `NULL` (last conjunct). -/
theorem new_failure_returns_dangling :
    (meteo_detect_new suExp0 20 ⟨true, true, true, true, true, false⟩).1 =
      CtorResult.dangling ∧
    (meteo_detect_new suExp0 20 ⟨true, true, true, true, true, false⟩).1 ≠
      CtorResult.nullPtr ∧
    (∀ st : meteo_detect,
      (meteo_detect_new suExp0 20 ⟨true, true, true, true, true,
        false⟩).1 ≠ CtorResult.valid st) ∧
    Multiset.ofList
      (meteo_detect_new suExp0 20
        ⟨true, true, true, true, true, false⟩).2.1 =
      Multiset.ofList
        (meteo_detect_new suExp0 20
          ⟨true, true, true, true, true, false⟩).2.2 ∧
    (meteo_detect_new suExp0 20 ⟨false, true, true, true, true, true⟩).1 =
      CtorResult.nullPtr := by
  refine ⟨rfl, ?_, ?_, ?_, rfl⟩
  · intro hcon
    exact CtorResult.noConfusion hcon
  · intro st hcon
    exact CtorResult.noConfusion hcon
  · decide

/-- Claim C8: every successfully constructed detector has
`powerbuf_len = ceil(fs * MIN_CHIRP_DURATION)` with
`MIN_CHIRP_DURATION = 0.07`, and
`energy_thres = POWER_THRESHOLD * powerbuf_len` where
`POWER_THRESHOLD = 2 * (LPF2_CUTOFF / LPF1_CUTOFF) = 2 * (50 / 300) = 1/3`
exactly. -/
theorem construction_window_and_threshold (su_exp : ℚ → ℚ) (fs : ℚ)
    (o : AllocOracle) (st : meteo_detect)
    (h : (meteo_detect_new su_exp fs o).1 = CtorResult.valid st) :
    st.powerbuf_len = (⌈fs * (7 / 100 : ℚ)⌉).toNat ∧
    st.energy_thres = 2 * (50 / 300) * (st.powerbuf_len : ℚ) ∧
    st.energy_thres = (st.powerbuf_len : ℚ) / 3 := by
  have hst := new_valid_eq su_exp fs o st h
  subst hst
  refine ⟨rfl, ?_, ?_⟩ <;>
    · simp only [initState, POWER_THRESHOLD, LPF1_CUTOFF, LPF2_CUTOFF,
        MIN_CHIRP_DURATION]
      try ring

/-! ### Claim theorems: silent input -/

lemma silentRun_const (su_exp : ℚ → ℚ) (carg : Cplx → ℚ) (fs : ℚ)
    (k : ℕ) :
    (silentRun su_exp carg fs k).powerbuf_len =
      (⌈fs * MIN_CHIRP_DURATION⌉).toNat ∧
    (silentRun su_exp carg fs k).energy_thres =
      POWER_THRESHOLD * (((⌈fs * MIN_CHIRP_DURATION⌉).toNat : ℕ) : ℚ) := by
  induction k with
  | zero => exact ⟨rfl, rfl⟩
  | succ k ih =>
      obtain ⟨h1, h2⟩ := ih
      exact ⟨by rw [silentRun, feed_powerbuf_len, h1],
             by rw [silentRun, feed_energy_thres, h2]⟩

lemma silent_inv (su_exp : ℚ → ℚ) (carg : Cplx → ℚ) (fs : ℚ)
    (hfs : 0 < fs) (k : ℕ) :
    (silentRun su_exp carg fs k).n0 = 0 ∧
    (silentRun su_exp carg fs k).s0 = 0 ∧
    (silentRun su_exp carg fs k).in_chirp = false ∧
    (silentRun su_exp carg fs k).powerbuf =
      List.replicate (silentRun su_exp carg fs k).powerbuf_len 0 := by
  have hL : 0 < (⌈fs * MIN_CHIRP_DURATION⌉).toNat := by
    have h1 : (0 : ℤ) < ⌈fs * MIN_CHIRP_DURATION⌉ := by
      refine Int.ceil_pos.mpr ?_
      have : (0 : ℚ) < MIN_CHIRP_DURATION := by norm_num [MIN_CHIRP_DURATION]
      positivity
    omega
  induction k with
  | zero => refine ⟨rfl, rfl, rfl, rfl⟩
  | succ k ih =>
      obtain ⟨hn0, hs0, hic, hbuf⟩ := ih
      obtain ⟨hlen, hthr⟩ := silentRun_const su_exp carg fs k
      have hn0' : n0After (silentRun su_exp carg fs k) silentExt = 0 := by
        simp [n0After, hn0, silentExt, cmul, cconj]
      have hs0' : s0After (silentRun su_exp carg fs k) silentExt = 0 := by
        simp [s0After, hs0, silentExt, cmul, cconj]
      have hint : integralAfter (silentRun su_exp carg fs k) silentExt = 0 := by
        simp [integralAfter, ratioAfter, hn0', hs0', hbuf,
          List.set_replicate_self]
      have hnotge : ¬ (silentRun su_exp carg fs k).energy_thres ≤
          integralAfter (silentRun su_exp carg fs k) silentExt := by
        rw [hint, hthr, POWER_THRESHOLD, LPF1_CUTOFF, LPF2_CUTOFF]
        have : (1 : ℚ) ≤ (((⌈fs * MIN_CHIRP_DURATION⌉).toNat : ℕ) : ℚ) := by
          exact_mod_cast Nat.one_le_iff_ne_zero.mpr (by omega)
        intro hcon
        nlinarith
      obtain ⟨hic', _, _, _⟩ :=
        feed_idle_eq carg (silentRun su_exp carg fs k) ((0 : ℚ), (0 : ℚ))
          silentExt hic hnotge
      refine ⟨?_, ?_, hic', ?_⟩
      · rw [silentRun, feed_n0, hn0']
      · rw [silentRun, feed_s0, hs0']
      · rw [silentRun, feed_powerbuf, feed_powerbuf_len, hbuf, ratioAfter,
          hn0', hs0']
        simp [List.set_replicate_self]

/-- Claim C9: a freshly constructed detector fed only all-zero samples
(for which the external zero-state filters output zero, making the stored
power ratio the unguarded division `0 / 0`) keeps `n0 = 0` and `s0 = 0`
after every number of feed calls and never enters the chirp state. -/
theorem silent_input_stays_idle (su_exp : ℚ → ℚ) (carg : Cplx → ℚ)
    (fs : ℚ) (hfs : 0 < fs) (k : ℕ) :
    (silentRun su_exp carg fs k).n0 = 0 ∧
    (silentRun su_exp carg fs k).s0 = 0 ∧
    (silentRun su_exp carg fs k).in_chirp = false := by
  obtain ⟨h1, h2, h3, _⟩ := silent_inv su_exp carg fs hfs k
  exact ⟨h1, h2, h3⟩

/-! ### Claim theorems: the trailing drain window -/

lemma drain_run (carg : Cplx → ℚ) (inputs : List (Cplx × ExtOut)) :
    ∀ md : meteo_detect, md.in_chirp = false →
    belowThroughout carg md inputs = true →
    inputs.length ≤ md.chirp_remaining →
    (feedTrace carg md inputs).1.chirp_remaining =
      md.chirp_remaining - inputs.length ∧
    ((feedTrace carg md inputs).2.map Prod.fst =
      (List.range inputs.length).map
        (fun k => if k + 1 < md.chirp_remaining then (1 : ℚ) else 0)) ∧
    ∀ k, k ≤ inputs.length →
      (feedTrace carg md (inputs.take k)).1.chirp_remaining =
        md.chirp_remaining - k := by
  induction inputs with
  | nil =>
      intro md h1 _ _
      refine ⟨by simp [feedTrace], by simp [feedTrace], ?_⟩
      intro k hk
      simp only [List.length_nil, Nat.le_zero] at hk
      subst hk
      simp [feedTrace]
  | cons i rest ih =>
      intro md h1 hbelow hlen
      obtain ⟨x, e⟩ := i
      rw [belowThroughout, Bool.and_eq_true, decide_eq_true_eq] at hbelow
      obtain ⟨h2, hb'⟩ := hbelow
      have h2' : ¬ md.energy_thres ≤ integralAfter md e := not_le.mpr h2
      obtain ⟨hic', _, hr', _⟩ := feed_idle_eq carg md x e h1 h2'
      have hpos : 0 < md.chirp_remaining := by
        simp only [List.length_cons] at hlen
        omega
      have hr'' : (meteo_detect_feed carg md x e).1.chirp_remaining =
          md.chirp_remaining - 1 := by
        rw [hr', if_pos hpos]
      have hlen' : rest.length ≤
          (meteo_detect_feed carg md x e).1.chirp_remaining := by
        rw [hr'']
        simp only [List.length_cons] at hlen
        omega
      obtain ⟨ihA, ihB, ihC⟩ :=
        ih (meteo_detect_feed carg md x e).1 hic' hb' hlen'
      refine ⟨?_, ?_, ?_⟩
      · simp only [feedTrace, List.length_cons]
        rw [ihA, hr'']
        omega
      · simp only [feedTrace, List.map_cons, List.length_cons,
          List.range_succ_eq_map, List.map_map]
        congr 1
        · rw [feed_out_fst, hr'']
          exact if_congr (by omega) rfl rfl
        · rw [ihB, hr'']
          refine List.map_congr_left ?_
          intro k _
          simp only [Function.comp]
          exact if_congr (by omega) rfl rfl
      · intro k hk
        cases k with
        | zero => simp [feedTrace]
        | succ j =>
            simp only [List.take_succ_cons, feedTrace]
            rw [ihC j (by simp only [List.length_cons] at hk; omega), hr'']
            omega

/-- Claim C2, amended: consider a reachable state inside a chirp
(`in_chirp = true`, so `chirp_remaining = powerbuf_len` by the chirp
invariant) and a following run of `powerbuf_len` feed calls whose windowed
integrals all stay below the threshold (so the chirp ends on the first of
them and the chirp state is not re-entered).  Then `chirp_remaining`
decrements from `powerbuf_len` to 0, by one per call, over exactly those
`powerbuf_len` calls — but `validData` (the output real part being 1) holds
for exactly the first `powerbuf_len - 1` of them, and the last of the
`powerbuf_len` calls already emits real part 0. -/
theorem tail_drain_after_chirp_end (su_exp : ℚ → ℚ) (carg : Cplx → ℚ)
    (fs : ℚ) (md : meteo_detect) (inputs : List (Cplx × ExtOut))
    (h : Reachable su_exp carg fs md) (hfs : 0 < fs)
    (hchirp : md.in_chirp = true)
    (hlen : inputs.length = md.powerbuf_len)
    (hbelow : belowThroughout carg md inputs = true) :
    (feedTrace carg md inputs).1.chirp_remaining = 0 ∧
    ((feedTrace carg md inputs).2.map Prod.fst =
      (List.range md.powerbuf_len).map
        (fun k => if k + 1 < md.powerbuf_len then (1 : ℚ) else 0)) ∧
    ∀ k, k ≤ md.powerbuf_len →
      (feedTrace carg md (inputs.take k)).1.chirp_remaining =
        md.powerbuf_len - k := by
  obtain ⟨hL, _, _, hfull⟩ := reachable_inv su_exp carg fs md h hfs
  have hrem : md.chirp_remaining = md.powerbuf_len := hfull hchirp
  cases inputs with
  | nil =>
      rw [List.length_nil] at hlen
      omega
  | cons i rest =>
      obtain ⟨x, e⟩ := i
      rw [belowThroughout, Bool.and_eq_true, decide_eq_true_eq] at hbelow
      obtain ⟨h2, hb'⟩ := hbelow
      obtain ⟨hic', _, hr', _⟩ := feed_exit_eq carg md x e hchirp h2
      have hr'' : (meteo_detect_feed carg md x e).1.chirp_remaining =
          md.powerbuf_len - 1 := by
        rw [hr', if_pos (by omega), hrem]
      have hlen' : rest.length ≤
          (meteo_detect_feed carg md x e).1.chirp_remaining := by
        rw [hr'']
        simp only [List.length_cons] at hlen
        omega
      obtain ⟨ihA, ihB, ihC⟩ := drain_run carg rest
        (meteo_detect_feed carg md x e).1 hic' hb' hlen'
      refine ⟨?_, ?_, ?_⟩
      · simp only [feedTrace]
        rw [ihA, hr'']
        simp only [List.length_cons] at hlen
        omega
      · have hlrest : rest.length = md.powerbuf_len - 1 := by
          simp only [List.length_cons] at hlen
          omega
        have hLsucc : md.powerbuf_len = rest.length + 1 := by omega
        rw [hLsucc]
        simp only [feedTrace, List.map_cons, List.range_succ_eq_map,
          List.map_map]
        congr 1
        · rw [feed_out_fst, hr'']
          exact if_congr (by omega) rfl rfl
        · rw [ihB, hr'']
          refine List.map_congr_left ?_
          intro k _
          simp only [Function.comp]
          exact if_congr (by omega) rfl rfl
      · intro k hk
        cases k with
        | zero =>
            simp [feedTrace, hrem]
        | succ j =>
            simp only [List.take_succ_cons, feedTrace]
            rw [ihC j (by simp only [List.length_cons] at hlen; omega), hr'']
            omega

/-! ### A concrete run used for witnesses and counterexamples -/

lemma exInit_eq : exInit =
    ⟨20, 0, 1, 0, 0, 2, 0, [0, 0], [((0:ℚ), (0:ℚ)), ((0:ℚ), (0:ℚ))], 2/3,
     false, 0, 0, ((0:ℚ), (0:ℚ))⟩ := by
  have hceil : (⌈(20:ℚ) * MIN_CHIRP_DURATION⌉) = 2 := by
    rw [Int.ceil_eq_iff]
    norm_num [MIN_CHIRP_DURATION]
  have htn : Int.toNat 2 = 2 := rfl
  simp only [exInit, initState, hceil]
  norm_num [suExp0, POWER_THRESHOLD, LPF1_CUTOFF, LPF2_CUTOFF,
    List.replicate, htn]

lemma exS1_eq : exS1 =
    ⟨20, 1, 1, 1, 1, 2, 1, [1, 0], [((0:ℚ), (0:ℚ)), ((0:ℚ), (0:ℚ))], 2/3,
     true, 2, 2, ((1:ℚ), (0:ℚ))⟩ := by
  simp only [exS1]
  rw [exInit_eq]
  norm_num [meteo_detect_feed, n0After, s0After, ratioAfter, integralAfter,
    extA, carg0, cmul, cconj, W64, List.set]

lemma exS2_eq : exS2 =
    ⟨20, 2, 1, 1, 0, 2, 0, [1, 0], [((0:ℚ), (0:ℚ)), ((0:ℚ), (0:ℚ))], 2/3,
     true, 3, 2, ((0:ℚ), (0:ℚ))⟩ := by
  simp only [exS2]
  rw [exS1_eq]
  norm_num [meteo_detect_feed, n0After, s0After, ratioAfter, integralAfter,
    extB, carg0, cmul, cconj, W64, List.set]

lemma exS2_seconds : secondsAt exS2 = 922337203685477580 := by
  rw [exS2_eq]
  have hmod : ((2 + W64 - 3) % W64 : ℕ) = 18446744073709551615 := by
    norm_num [W64]
  simp only [secondsAt]
  rw [hmod]
  have hfl : (⌊(18446744073709551615 : ℚ) / 20⌋ : ℤ) =
      922337203685477580 := by
    rw [Int.floor_eq_iff]
    norm_num
  have htn : Int.toNat 922337203685477580 = 922337203685477580 := rfl
  norm_num [hfl, htn]

lemma exS3_eq : exS3 =
    ⟨20, 3, 1, 1, 0, 2, 1, [0, 0], [((0:ℚ), (0:ℚ)), ((0:ℚ), (0:ℚ))], 2/3,
     false, 3, 1, ((0:ℚ), (0:ℚ))⟩ := by
  simp only [exS3]
  rw [exS2_eq]
  norm_num [meteo_detect_feed, n0After, s0After, ratioAfter, integralAfter,
    extB, carg0, cmul, cconj, W64, List.set]

lemma exMsg3 : (meteo_detect_feed carg0 exS2 xIn extB).2.1 =
    [⟨3, 256204778801521, 33, 0⟩] := by
  rw [exS2_eq]
  have hmod : ((2 + W64 - 3) % W64 : ℕ) = 18446744073709551615 := by
    norm_num [W64]
  have hfl : (⌊(18446744073709551615 : ℚ) / 20⌋ : ℤ) =
      922337203685477580 := by
    rw [Int.floor_eq_iff]
    norm_num
  have htn : Int.toNat 922337203685477580 = 922337203685477580 := rfl
  norm_num [meteo_detect_feed, n0After, s0After, ratioAfter, integralAfter,
    secondsAt, extB, carg0, cmul, cconj, W64, List.set, hfl, htn]

lemma exS2_integral : integralAfter exS2 extB < exS2.energy_thres := by
  rw [exS2_eq]
  norm_num [integralAfter, ratioAfter, s0After, n0After, extB, cmul, cconj,
    List.set]

lemma exS3_integral : integralAfter exS3 extB < exS3.energy_thres := by
  rw [exS3_eq]
  norm_num [integralAfter, ratioAfter, s0After, n0After, extB, cmul, cconj,
    List.set]

lemma exBelow :
    belowThroughout carg0 exS2 [(xIn, extB), (xIn, extB)] = true := by
  have hstep : (meteo_detect_feed carg0 exS2 xIn extB).1 = exS3 := rfl
  simp only [belowThroughout, hstep, Bool.and_eq_true, decide_eq_true_eq]
  exact ⟨exS2_integral, exS3_integral, trivial⟩

lemma exTraceOuts :
    (feedTrace carg0 exS2 [(xIn, extB), (xIn, extB)]).2.map Prod.fst =
      [1, 0] := by
  have hstep : (meteo_detect_feed carg0 exS2 xIn extB).1 = exS3 := rfl
  have h3ic : exS3.in_chirp = false := by rw [exS3_eq]
  have h3n : ¬ exS3.energy_thres ≤ integralAfter exS3 extB :=
    not_le.mpr exS3_integral
  have hrem3 : (meteo_detect_feed carg0 exS2 xIn extB).1.chirp_remaining =
      1 := by rw [hstep, exS3_eq]
  have hrem4 : (meteo_detect_feed carg0 exS3 xIn extB).1.chirp_remaining =
      0 := by
    obtain ⟨_, _, hr4, _⟩ := feed_idle_eq carg0 exS3 xIn extB h3ic h3n
    rw [hr4]
    norm_num [exS3_eq]
  have hrem3' : exS3.chirp_remaining = 1 := by rw [exS3_eq]
  simp only [feedTrace, hstep, List.map_cons, List.map_nil, feed_out_fst,
    hrem3', hrem4]
  norm_num

/-! ### Counterexamples -/

/-- Claim C2 counterexample: on the reachable state `exS2` (inside a
chirp, `powerbuf_len = 2`, `chirp_remaining = 2`), the chirp ends on the
next feed call and the chirp state is never re-entered, yet over the
`powerbuf_len = 2` feed calls starting at the chirp end the emitted
output real parts (`validData`) are `[1, 0]`, not `[1, 1]`: `validData`
holds for only `windowLen - 1 = 1` trailing call, because the
chirp-ending call itself already decrements `tailRemaining` from 2 to 1
and the second call drains it to 0. -/
theorem tail_valid_count_counterexample :
    exS2.in_chirp = true ∧
    (meteo_detect_feed carg0 exS2 xIn extB).1.in_chirp = false ∧
    exS2.powerbuf_len = 2 ∧
    exS2.chirp_remaining = 2 ∧
    belowThroughout carg0 exS2 [(xIn, extB), (xIn, extB)] = true ∧
    (feedTrace carg0 exS2 [(xIn, extB), (xIn, extB)]).2.map Prod.fst =
      [1, 0] := by
  have hic : exS2.in_chirp = true := by rw [exS2_eq]
  refine ⟨hic, ?_, by rw [exS2_eq], by rw [exS2_eq], exBelow, exTraceOuts⟩
  have hstep : (meteo_detect_feed carg0 exS2 xIn extB).1 = exS3 := rfl
  rw [hstep, exS3_eq]

/-- Claim C5 counterexample: on the reachable state `exS2` the chirp-end
call has `sampleCounter = 2` and `chirpLength = 3`, so the claim's
timestamp `floor((sampleCounter - chirpLength) / sampleRate)` is `-1`
second, while the code's unsigned 64-bit subtraction wraps and the
emitted notification reports 256204778801521 hours (seconds value
`floor((2^64 - 1) / 20) = 922337203685477580`). -/
theorem chirp_end_timestamp_counterexample :
    exS2.in_chirp = true ∧
    integralAfter exS2 extB < exS2.energy_thres ∧
    exS2.n = 2 ∧ exS2.chirp_len = 3 ∧
    (meteo_detect_feed carg0 exS2 xIn extB).2.1 =
      [⟨3, 256204778801521, 33, 0⟩] ∧
    (⌊(((exS2.n : ℚ) - (exS2.chirp_len : ℚ)) / exS2.fs)⌋ : ℤ) = -1 := by
  refine ⟨by rw [exS2_eq], exS2_integral, by rw [exS2_eq], by rw [exS2_eq],
    exMsg3, ?_⟩
  rw [exS2_eq]
  rw [Int.floor_eq_iff]
  norm_num

/-! ### Witnesses -/

lemma mdT_tie : integralAfter mdT extA = mdT.energy_thres := by
  norm_num [integralAfter, ratioAfter, s0After, n0After, mdT, extA, cmul,
    cconj, List.set]

lemma exS2_reachable : Reachable suExp0 carg0 20 exS2 :=
  Reachable.step exS1 xIn extB
    (Reachable.step exInit xIn extA
      (Reachable.init ⟨true, true, true, true, true, true⟩ exInit rfl))

theorem tail_drain_after_chirp_end_witness :
    exS2.in_chirp = true ∧
    ([(xIn, extB), (xIn, extB)] : List (Cplx × ExtOut)).length =
      exS2.powerbuf_len ∧
    belowThroughout carg0 exS2 [(xIn, extB), (xIn, extB)] = true ∧
    (feedTrace carg0 exS2 [(xIn, extB), (xIn, extB)]).1.chirp_remaining =
      0 := by
  have hic : exS2.in_chirp = true := by rw [exS2_eq]
  have hlen : ([(xIn, extB), (xIn, extB)] : List (Cplx × ExtOut)).length =
      exS2.powerbuf_len := by
    rw [exS2_eq]
    rfl
  exact ⟨hic, hlen, exBelow,
    (tail_drain_after_chirp_end suExp0 carg0 20 exS2
      [(xIn, extB), (xIn, extB)] exS2_reachable (by norm_num) hic hlen
      exBelow).1⟩

theorem threshold_tie_enters_chirp_witness :
    integralAfter mdT extA = mdT.energy_thres ∧
    (meteo_detect_feed carg0 mdT xIn extA).1.in_chirp = true :=
  ⟨mdT_tie, threshold_tie_enters_chirp carg0 mdT xIn extA mdT_tie⟩

theorem idle_to_chirp_sets_lengths_witness :
    mdT.in_chirp = false ∧
    mdT.energy_thres ≤ integralAfter mdT extA ∧
    (meteo_detect_feed carg0 mdT xIn extA).1.chirp_len =
      mdT.powerbuf_len :=
  ⟨rfl, le_of_eq mdT_tie.symm,
   (idle_to_chirp_sets_lengths carg0 mdT xIn extA rfl
     (le_of_eq mdT_tie.symm)).2.1⟩

theorem chirp_end_notification_witness :
    exS2.in_chirp = true ∧
    integralAfter exS2 extB < exS2.energy_thres ∧
    (meteo_detect_feed carg0 exS2 xIn extB).1.in_chirp = false := by
  have hic : exS2.in_chirp = true := by rw [exS2_eq]
  exact ⟨hic, exS2_integral,
    (chirp_end_notification carg0 exS2 xIn extB hic exS2_integral).2.1⟩

theorem reachable_index_and_tail_bounds_witness :
    (0 : ℚ) < 20 ∧ exInit.p < exInit.powerbuf_len := by
  have hreach : Reachable suExp0 carg0 20 exInit :=
    Reachable.init ⟨true, true, true, true, true, true⟩ exInit rfl
  exact ⟨by norm_num,
    (reachable_index_and_tail_bounds suExp0 carg0 20 exInit hreach
      (by norm_num)).1⟩

theorem construction_window_and_threshold_witness :
    (meteo_detect_new suExp0 20 ⟨true, true, true, true, true, true⟩).1 =
      CtorResult.valid exInit ∧
    exInit.energy_thres = (exInit.powerbuf_len : ℚ) / 3 :=
  ⟨rfl, (construction_window_and_threshold suExp0 20
    ⟨true, true, true, true, true, true⟩ exInit rfl).2.2⟩

theorem silent_input_stays_idle_witness :
    (0 : ℚ) < 20 ∧ (silentRun suExp0 carg0 20 3).in_chirp = false :=
  ⟨by norm_num, (silent_input_stays_idle suExp0 carg0 20 (by norm_num)
    3).2.2⟩

theorem in_chirp_tail_stays_full_witness :
    (0 : ℚ) < 20 ∧
    (meteo_detect_feed carg0 exInit xIn extA).1.in_chirp = true ∧
    ((meteo_detect_feed carg0 exInit xIn extA).2.2).1 = 1 := by
  have hreach : Reachable suExp0 carg0 20 exInit :=
    Reachable.init ⟨true, true, true, true, true, true⟩ exInit rfl
  have hstep : (meteo_detect_feed carg0 exInit xIn extA).1 = exS1 := rfl
  have hc : (meteo_detect_feed carg0 exInit xIn extA).1.in_chirp = true := by
    rw [hstep, exS1_eq]
  exact ⟨by norm_num, hc,
    (in_chirp_tail_stays_full suExp0 carg0 20 exInit xIn extA hreach
      (by norm_num) hc).2.2⟩
